import Mathlib

/-!
Verification of the core of `twitter_scraper.py` (class `TwitterScraper`):
the rate limiter (`check_rate_limit`), the batch CSV writer
(`init_csv` / `save_tweets_batch`), the session setup (`setup_client`) and the
rate-limited pagination-and-persistence loop (`search_tweets`).

Modelling conventions:
- wall-clock times and durations (Python floats from `time.time()` and
  `random.uniform`) are rationals;
- the output CSV file is modelled as the ordered list of data rows below its
  single header (the header is written once by `init_csv` and never again,
  since `save_tweets_batch` writes with `header=False`);
- the `await`ed upstream calls (`client.search_tweet`, `result.next()`) are
  modelled by a list of fetch outcomes, each either a page of tweets or an
  upstream error; an empty page is falsy in Python, so it terminates the loop;
- a Python exception raised while extracting one tweet is an `Except.error`.
-/

namespace TwitterScraper

/-- `self.max_requests = 45` (line 23). -/
def max_requests : Nat := 45

/-- The window length: 900 seconds, i.e. 15 minutes (lines 22, 64, 78). -/
def window : ℚ := 900

/-- The rate limiter state: the fields `self.requests_count` and
`self.reset_time` (lines 21-22). -/
structure RLState where
  requests_count : Nat
  reset_time : ℚ
deriving DecidableEq, Repr

/-- First step of `check_rate_limit` (lines 62-64): if the current time has
passed `reset_time`, zero the counter and set `reset_time = current_time + 900`. -/
def rlReset (s : RLState) (t : ℚ) : RLState :=
  if s.reset_time < t then { requests_count := 0, reset_time := t + window } else s

/-- `check_rate_limit` (lines 57-84). `t` is `time.time()` at entry; `wake` is
the value of `time.time()` when the cooldown wait loop of lines 72-75 has
ended (meaningful only in the limit branch, where that loop guarantees
`s.reset_time ≤ wake`); `d` is the `random.uniform(10, 17)` draw of line 82.
Returns the new limiter state and the time at which the call returns (after
the unconditional `time.sleep(cooldown)` of line 83). -/
def check_rate_limit (s : RLState) (t wake d : ℚ) : RLState × ℚ :=
  if max_requests ≤ (rlReset s t).requests_count then
    ({ requests_count := 1, reset_time := wake + window }, wake + d)
  else
    ({ requests_count := (rlReset s t).requests_count + 1,
       reset_time := (rlReset s t).reset_time }, t + d)

/-- One `check_rate_limit` call event: entry time, wake time of the
rate-limit wait loop, and the random cooldown draw. -/
structure RLEvent where
  t : ℚ
  wake : ℚ
  d : ℚ

/-- The limiter state after a sequence of `check_rate_limit` calls, starting
from the constructor state of lines 21-22: `requests_count = 0`,
`reset_time = t0 + 900` where `t0` is the construction time. -/
def rlRun (t0 : ℚ) (evs : List RLEvent) : RLState :=
  evs.foldl (fun s e => (check_rate_limit s e.t e.wake e.d).1) ⟨0, t0 + window⟩

/-- One element of `tweet.media`. `mtype` models `getattr(media, "type", "")`
(a missing attribute is `none`); `media_url` models
`getattr(media, "media_url", "None")`; `streams` models the optional
`media.streams` list (absent when `hasattr(media, "streams")` is false),
each stream represented by its `url`. -/
structure MediaItem where
  mtype : Option String
  media_url : Option String
  streams : Option (List String)
deriving DecidableEq, Repr

/-- One element of `tweet.urls`; `expanded_url` models
`getattr(url_entity, "expanded_url", "")`. -/
structure UrlEntity where
  expanded_url : Option String
deriving DecidableEq, Repr

/-- A platform result item, with the attributes read by the extraction code
(lines 134-182). `media`/`urls` are `none` when the corresponding
`hasattr` test fails. -/
structure Tweet where
  id : String
  text : String
  created_at : String
  author_id : String
  author_username : String
  retweet_count : Nat
  favorite_count : Nat
  reply_count : Nat
  media : Option (List MediaItem)
  urls : Option (List UrlEntity)
deriving DecidableEq, Repr

/-- The flat `tweet_data` row built at lines 169-182, with its CSV columns. -/
structure Record where
  id : String
  text : String
  created_at : String
  author_id : String
  author_username : String
  retweet_count : Nat
  like_count : Nat
  reply_count : Nat
  media_urls : String
  urls : String
  has_media : Bool
  media_types : String
deriving DecidableEq, Repr, Inhabited

/-- The `for media in tweet.media` loop of lines 142-159, accumulating
`media_urls`, `media_types`, `has_media`. An `.error` is the `IndexError`
raised by `media.streams[-1]` (line 159) on an empty streams list; for a
nonempty streams list `s :: ss`, `streams[-1]` is `ss.getLastD s`. -/
def extractMediaLoop : List MediaItem → List String → List String → Bool →
    Except Unit (List String × List String × Bool)
  | [], murls, mtypes, hm => .ok (murls, mtypes, hm)
  | m :: rest, murls, mtypes, _ =>
    let media_type := m.mtype.getD ""
    if media_type = "photo" then
      let media_url := m.media_url.getD "None"
      extractMediaLoop rest
        (if media_url ≠ "" then murls ++ [media_url ++ "?format=jpg&name=large"]
         else murls)
        (mtypes ++ [media_type]) true
    else if media_type = "video" ∨ media_type = "animated_gif" then
      match m.streams with
      | none => extractMediaLoop rest murls (mtypes ++ [media_type]) true
      | some [] => .error ()
      | some (s :: ss) =>
          extractMediaLoop rest (murls ++ [ss.getLastD s]) (mtypes ++ [media_type]) true
    else extractMediaLoop rest murls (mtypes ++ [media_type]) true

/-- The `for url_entity in tweet.urls` loop of lines 163-167. -/
def extract_urls : Option (List UrlEntity) → List String
  | none => []
  | some es =>
      es.foldl (fun acc e =>
        if e.expanded_url.getD "" ≠ "" then acc ++ [e.expanded_url.getD ""] else acc) []

/-- Python `"|".join(l) if l else ""` (lines 178, 179, 181). -/
def joinOrEmpty (l : List String) : String :=
  if l = [] then "" else String.intercalate "|" l

/-- The per-item extraction body of the pagination loop (lines 134-182):
builds the `tweet_data` row for one tweet. `.error` models a Python
exception raised during extraction of the item. -/
def extract_tweet (tw : Tweet) : Except Unit Record :=
  match extractMediaLoop (tw.media.getD []) [] [] false with
  | .error e => .error e
  | .ok (media_urls, media_types, has_media) =>
    .ok { id := tw.id, text := tw.text, created_at := tw.created_at,
          author_id := tw.author_id, author_username := tw.author_username,
          retweet_count := tw.retweet_count, like_count := tw.favorite_count,
          reply_count := tw.reply_count,
          media_urls := joinOrEmpty media_urls,
          urls := joinOrEmpty (extract_urls tw.urls),
          has_media := has_media,
          media_types := joinOrEmpty media_types }

/-- Whether extraction of a tweet succeeds (no exception). -/
def extractsOk (tw : Tweet) : Bool :=
  match extract_tweet tw with
  | .ok _ => true
  | .error _ => false

/-- `save_tweets_batch` (lines 111-117). The CSV file is its ordered list of
data rows below the single header written by `init_csv`; an empty batch
returns immediately (lines 113-114), otherwise the batch rows are appended
in order with `header=False` (line 117). -/
def save_tweets_batch (file : List Record) (tweets_batch : List Record) :
    List Record :=
  if tweets_batch = [] then file else file ++ tweets_batch

/-- Outcome of `setup_client`. -/
inductive SetupResult where
  | usedCookies
  | loggedIn
  | credsError
deriving DecidableEq, Repr

/-- `setup_client` (lines 33-55), as a function of its environment: whether
`cookies.json` exists (line 35), whether `client.load_cookies` succeeds
(line 37 — an exception there is printed and falls through to credential
login, lines 40-43), and the three credentials read by `os.getenv` with
default "" (lines 44-46). `ValueError` is raised iff no cookie path
succeeded and some credential is falsy, i.e. empty (lines 48-49); otherwise
the client logs in and saves cookies (lines 51-55). -/
def setup_client (cookies_exists load_ok : Bool)
    (auth_info_1 auth_info_2 password : String) : SetupResult :=
  if cookies_exists && load_ok then .usedCookies
  else if auth_info_1 = "" ∨ auth_info_2 = "" ∨ password = "" then .credsError
  else .loggedIn

/-- Lines 186-190: once the batch holds 20 rows, save it and clear it.
Returns the new `(tweets_batch, file)` pair. -/
def flushStep (batch : List Record) (saved : List Record) :
    List Record × List Record :=
  if 20 ≤ batch.length then ([], save_tweets_batch saved batch) else (batch, saved)

/-- The `for tweet in result` loop (lines 134-193) over one page: returns the
updated `(tweets_batch, total_tweets, file, aborted)`. For each tweet it
extracts the row (an exception escapes to the handler at line 208, setting
the `aborted` flag), appends it, increments `total_tweets`, flushes at batch
size 20 (lines 186-190), and breaks once `total_tweets >= max_tweets`
(lines 192-193). -/
def processPage (max_tweets : Nat) :
    List Tweet → List Record → Nat → List Record →
    List Record × Nat × List Record × Bool
  | [], batch, total, saved => (batch, total, saved, false)
  | tw :: rest, batch, total, saved =>
    match extract_tweet tw with
    | .error _ => (batch, total, saved, true)
    | .ok r =>
      if max_tweets ≤ total + 1 then
        ((flushStep (batch ++ [r]) saved).1, total + 1,
          (flushStep (batch ++ [r]) saved).2, false)
      else
        processPage max_tweets rest (flushStep (batch ++ [r]) saved).1 (total + 1)
          (flushStep (batch ++ [r]) saved).2

/-- The `while result and total_tweets < max_tweets` loop (lines 132-201)
together with the final flush (lines 203-206) and the exception handler
(lines 208-212), starting from a fetched page `page`. `fetches` holds the
outcomes of the pending `result.next()` calls (line 198) in order; an
exhausted list models `next()` returning `None` (line 199). On an upstream
error or an extraction error the handler flushes the pending batch
(lines 210-212); on normal termination the final flush runs (lines 203-206).
Returns the final `(total_tweets, file)`. -/
def searchGo (max_tweets : Nat) (fetches : List (Except Unit (List Tweet)))
    (page : List Tweet) (batch : List Record) (total : Nat) (saved : List Record) :
    Nat × List Record :=
  if page = [] ∨ max_tweets ≤ total then
    (total, save_tweets_batch saved batch)
  else if (processPage max_tweets page batch total saved).2.2.2 = true then
    ((processPage max_tweets page batch total saved).2.1,
      save_tweets_batch (processPage max_tweets page batch total saved).2.2.1
        (processPage max_tweets page batch total saved).1)
  else if (processPage max_tweets page batch total saved).2.1 < max_tweets then
    match fetches with
    | [] =>
        ((processPage max_tweets page batch total saved).2.1,
          save_tweets_batch (processPage max_tweets page batch total saved).2.2.1
            (processPage max_tweets page batch total saved).1)
    | .error _ :: _ =>
        ((processPage max_tweets page batch total saved).2.1,
          save_tweets_batch (processPage max_tweets page batch total saved).2.2.1
            (processPage max_tweets page batch total saved).1)
    | .ok page2 :: rest =>
        searchGo max_tweets rest page2
          (processPage max_tweets page batch total saved).1
          (processPage max_tweets page batch total saved).2.1
          (processPage max_tweets page batch total saved).2.2.1
  else
    ((processPage max_tweets page batch total saved).2.1,
      save_tweets_batch (processPage max_tweets page batch total saved).2.2.1
        (processPage max_tweets page batch total saved).1)

/-- Result of one `search_tweets` run: the data rows appended to the CSV file
(in order, below the header), the final `total_tweets` counter, and the
Python return value — the body of `search_tweets` contains no `return`
statement, so the call evaluates to `None`. -/
structure RunResult where
  saved : List Record
  total_tweets : Nat
  returned : Option Nat
deriving DecidableEq, Repr

/-- `search_tweets` (lines 119-215). The head of `fetches` is the outcome of
the initial `client.search_tweet` call (line 130), the tail the successive
`result.next()` outcomes. `init_csv` (line 122) creates the file with only
its header, so the row list starts empty; `tweets_batch = []` and
`total_tweets = 0` (lines 124-125). An error on the initial fetch is caught
at line 208 with an empty batch, saving nothing. -/
def search_tweets (fetches : List (Except Unit (List Tweet))) (max_tweets : Nat) :
    RunResult :=
  match fetches with
  | [] => { saved := [], total_tweets := 0, returned := none }
  | .error _ :: _ => { saved := [], total_tweets := 0, returned := none }
  | .ok page :: rest =>
    { saved := (searchGo max_tweets rest page [] 0 []).2,
      total_tweets := (searchGo max_tweets rest page [] 0 []).1,
      returned := none }

/-- A concrete tweet with one photo media item. -/
def mediaTweet : Tweet :=
  { id := "1", text := "hello", created_at := "now", author_id := "7",
    author_username := "u", retweet_count := 2, favorite_count := 3,
    reply_count := 4,
    media := some [{ mtype := some "photo", media_url := some "m", streams := none }],
    urls := none }

/-- A concrete tweet with no media and no urls. -/
def plainTweet : Tweet :=
  { id := "2", text := "x", created_at := "c1", author_id := "9",
    author_username := "v", retweet_count := 0, favorite_count := 1,
    reply_count := 0, media := none, urls := none }

/-- A second concrete plain tweet. -/
def plainTweet2 : Tweet :=
  { id := "3", text := "y", created_at := "c2", author_id := "9",
    author_username := "v", retweet_count := 5, favorite_count := 0,
    reply_count := 2, media := none, urls := none }

/-- A malformed tweet: one "video" media item whose `streams` list exists but
is empty, so `media.streams[-1]` (line 159) raises `IndexError`. -/
def badTweet : Tweet :=
  { id := "4", text := "z", created_at := "c3", author_id := "9",
    author_username := "v", retweet_count := 0, favorite_count := 0,
    reply_count := 0,
    media := some [{ mtype := some "video", media_url := none, streams := some [] }],
    urls := none }

lemma rlReset_of_le (s : RLState) (t : ℚ) (h : t ≤ s.reset_time) : rlReset s t = s := by
  unfold rlReset
  rw [if_neg (not_lt.mpr h)]

lemma rlReset_of_lt (s : RLState) (t : ℚ) (h : s.reset_time < t) :
    rlReset s t = ⟨0, t + window⟩ := by
  unfold rlReset
  rw [if_pos h]

lemma check_rate_limit_count_le (s : RLState) (t wake d : ℚ) :
    (check_rate_limit s t wake d).1.requests_count ≤ max_requests := by
  unfold check_rate_limit
  split
  · simp [max_requests]
  · next h =>
      show (rlReset s t).requests_count + 1 ≤ max_requests
      omega

lemma rlRun_fold_le (evs : List RLEvent) (s : RLState) :
    (evs.foldl (fun s e => (check_rate_limit s e.t e.wake e.d).1) s).requests_count ≤
      max_requests ∨
    (evs.foldl (fun s e => (check_rate_limit s e.t e.wake e.d).1) s) = s := by
  induction evs generalizing s with
  | nil => exact Or.inr rfl
  | cons e evs ih =>
    rcases ih ((check_rate_limit s e.t e.wake e.d).1) with h | h
    · exact Or.inl h
    · exact Or.inl (by rw [List.foldl_cons, h]; exact check_rate_limit_count_le ..)

/-- C1: over every sequence of `check_rate_limit` calls the counter
`requests_count` never exceeds `max_requests` (45); a call that finds the
counter at the limit (and whose entry time has not passed `reset_time`)
resets the counter to 0 at the wake time of the blocking wait before
incrementing it, leaving it at 1 with the window anchored at the wake time;
and a call made strictly after `reset_time` first resets the counter and
re-anchors the window one length past the current time, likewise leaving the
counter at 1. -/
theorem c1_rate_limit_counter_invariant :
    (∀ (t0 : ℚ) (evs : List RLEvent), (rlRun t0 evs).requests_count ≤ max_requests) ∧
    (∀ (s : RLState) (t wake d : ℚ), max_requests ≤ s.requests_count → t ≤ s.reset_time →
      check_rate_limit s t wake d =
        ({ requests_count := 1, reset_time := wake + window }, wake + d)) ∧
    (∀ (s : RLState) (t wake d : ℚ), s.reset_time < t →
      check_rate_limit s t wake d =
        ({ requests_count := 1, reset_time := t + window }, t + d)) := by
  refine ⟨?_, ?_, ?_⟩
  · intro t0 evs
    rcases rlRun_fold_le evs ⟨0, t0 + window⟩ with h | h
    · exact h
    · rw [rlRun, h]; simp [max_requests]
  · intro s t wake d hcount htime
    unfold check_rate_limit
    rw [rlReset_of_le s t htime, if_pos hcount]
  · intro s t wake d htime
    unfold check_rate_limit
    rw [rlReset_of_lt s t htime]
    norm_num [max_requests]

/-- Witness for C1: the two hypothesis-bearing branch descriptions evaluated
at concrete states and times. -/
theorem c1_witness :
    check_rate_limit ⟨45, 100⟩ 50 120 10 = (⟨1, 1020⟩, 130) ∧
    check_rate_limit ⟨3, 100⟩ 200 0 10 = (⟨1, 1100⟩, 210) := by
  constructor
  · have h := c1_rate_limit_counter_invariant.2.1 ⟨45, 100⟩ 50 120 10
      (by norm_num [max_requests]) (by norm_num)
    rw [h]; norm_num [window]
  · have h := c1_rate_limit_counter_invariant.2.2 ⟨3, 100⟩ 200 0 10 (by norm_num)
    rw [h]; norm_num [window]

/-- C6: `check_rate_limit` always sleeps the random cooldown `d ∈ [10, 17]`
drawn at line 82, in every branch: the return time is the branch time
(the wake time in the limit branch, the entry time otherwise) plus `d`, and
hence is at least 10 seconds after the entry time, so consecutive returns
are at least `minInterRequestDelay = 10` seconds apart. -/
theorem c6_unconditional_cooldown :
    ∀ (s : RLState) (t wake d : ℚ), 10 ≤ d → d ≤ 17 → t ≤ wake →
      (check_rate_limit s t wake d).2 =
        (if max_requests ≤ (rlReset s t).requests_count then wake else t) + d ∧
      t + 10 ≤ (check_rate_limit s t wake d).2 := by
  intro s t wake d h10 h17 htw
  by_cases h : max_requests ≤ (rlReset s t).requests_count
  · rw [check_rate_limit, if_pos h, if_pos h]
    exact ⟨rfl, by show t + 10 ≤ wake + d; linarith⟩
  · rw [check_rate_limit, if_neg h, if_neg h]
    exact ⟨rfl, by show t + 10 ≤ t + d; linarith⟩

/-- Witness for C6 at a concrete state, entry time and draw. -/
theorem c6_witness : (check_rate_limit ⟨0, 1000⟩ 5 5 12).2 = 17 := by
  have h := (c6_unconditional_cooldown ⟨0, 1000⟩ 5 5 12 (by norm_num) (by norm_num)
    (le_refl 5)).1
  rw [h]
  norm_num [rlReset, max_requests]

lemma save_tweets_batch_eq_append (file b : List Record) :
    save_tweets_batch file b = file ++ b := by
  unfold save_tweets_batch
  split
  · next h => simp [h]
  · rfl

/-- C8: flushing an empty batch is a no-op on the output file (no extra row;
the header, written once by `init_csv` and never by `save_tweets_batch`, is
not duplicated), and iterating the empty flush any number of times equals
flushing once. -/
theorem c8_empty_flush_noop :
    ∀ (file : List Record), save_tweets_batch file [] = file ∧
      ∀ n : Nat, (fun f => save_tweets_batch f [])^[n] file = file := by
  intro file
  exact ⟨rfl, fun n => Function.iterate_fixed rfl n⟩

/-- C10: when the cookies file exists but loading it fails, `setup_client`
does not abort: it falls back to credential login, and raises an error
exactly when one of the three credential values is empty. -/
theorem c10_cookie_failure_fallback :
    ∀ (a1 a2 pw : String),
      setup_client true false a1 a2 pw =
        (if a1 = "" ∨ a2 = "" ∨ pw = "" then SetupResult.credsError
         else SetupResult.loggedIn) ∧
      (setup_client true false a1 a2 pw = SetupResult.credsError ↔
        (a1 = "" ∨ a2 = "" ∨ pw = "")) := by
  intro a1 a2 pw
  refine ⟨rfl, ?_⟩
  by_cases h : a1 = "" ∨ a2 = "" ∨ pw = ""
  · simp [setup_client, h]
  · simp [setup_client, h]

lemma extractMediaLoop_hm (ms : List MediaItem) :
    ∀ murls mtypes hm u ty h,
      extractMediaLoop ms murls mtypes hm = .ok (u, ty, h) →
      h = (hm || !ms.isEmpty) := by
  induction ms with
  | nil =>
    intro murls mtypes hm u ty h hok
    simp only [extractMediaLoop] at hok
    injection hok with hok
    cases hok
    simp
  | cons m rest ih =>
    intro murls mtypes hm u ty h hok
    simp only [extractMediaLoop] at hok
    split at hok
    · have := ih _ _ _ _ _ _ hok
      simp_all
    · split at hok
      · split at hok
        · have := ih _ _ _ _ _ _ hok
          simp_all
        · exact absurd hok (by simp)
        · have := ih _ _ _ _ _ _ hok
          simp_all
      · have := ih _ _ _ _ _ _ hok
        simp_all

/-- C9: for a successfully extracted record, `has_media` is true iff the
tweet has a media attribute holding at least one element; a tweet with no
media attribute, or an empty media list, yields `has_media = false` and
empty `media_urls` and `media_types` strings. -/
theorem c9_has_media_iff :
    ∀ (tw : Tweet) (r : Record), extract_tweet tw = .ok r →
      ((r.has_media = true ↔ ∃ ms, tw.media = some ms ∧ ms ≠ []) ∧
       ((tw.media = none ∨ tw.media = some []) →
         r.has_media = false ∧ r.media_urls = "" ∧ r.media_types = "")) := by
  intro tw r hok
  unfold extract_tweet at hok
  split at hok
  · exact absurd hok (by simp)
  · rename_i mu mt hm heq
    injection hok with hok
    subst hok
    have hhm := extractMediaLoop_hm _ _ _ _ _ _ _ heq
    constructor
    · show hm = true ↔ _
      cases htw : tw.media with
      | none =>
        rw [htw] at hhm
        simp only [Option.getD_none, List.isEmpty_nil, Bool.not_true,
          Bool.or_false] at hhm
        simp [hhm]
      | some ms =>
        rw [htw] at hhm
        cases ms with
        | nil =>
          simp only [Option.getD_some, List.isEmpty_nil, Bool.not_true,
            Bool.or_false] at hhm
          simp [hhm]
        | cons m ms =>
          simp only [Option.getD_some, List.isEmpty_cons, Bool.not_false,
            Bool.or_true] at hhm
          simp [hhm]
    · intro hcase
      have hnil : tw.media.getD [] = [] := by
        rcases hcase with h | h <;> simp [h]
      rw [hnil] at heq
      simp only [extractMediaLoop, Except.ok.injEq, Prod.mk.injEq] at heq
      obtain ⟨h1, h2, h3⟩ := heq
      refine ⟨by simp [← h3], by simp [← h1, joinOrEmpty], by simp [← h2, joinOrEmpty]⟩

/-- Witness for C9 at a concrete tweet with one photo media item. -/
theorem c9_witness :
    ((extract_tweet mediaTweet).toOption.getD default).has_media = true :=
  (c9_has_media_iff mediaTweet _ rfl).1.mpr
    ⟨[{ mtype := some "photo", media_url := some "m", streams := none }], rfl, by simp⟩

lemma flushStep_flat (b s : List Record) :
    (flushStep b s).2 ++ (flushStep b s).1 = s ++ b := by
  unfold flushStep
  split
  · simp [save_tweets_batch_eq_append]
  · rfl

lemma flushStep_len (b s : List Record) :
    (flushStep b s).2.length + (flushStep b s).1.length = s.length + b.length := by
  have h := congrArg List.length (flushStep_flat b s)
  simpa using h

lemma processPage_le (K : Nat) :
    ∀ (page : List Tweet) (batch : List Record) (total : Nat) (saved : List Record),
      total < K → (processPage K page batch total saved).2.1 ≤ K := by
  intro page
  induction page with
  | nil =>
    intro batch total saved h
    simp only [processPage]
    omega
  | cons tw rest ih =>
    intro batch total saved h
    cases hx : extract_tweet tw with
    | error e =>
      simp only [processPage, hx]
      omega
    | ok r =>
      simp only [processPage, hx]
      by_cases hk : K ≤ total + 1
      · rw [if_pos hk]
        show total + 1 ≤ K
        omega
      · rw [if_neg hk]
        exact ih _ _ _ (by omega)

lemma processPage_len (K : Nat) :
    ∀ (page : List Tweet) (batch : List Record) (total : Nat) (saved : List Record),
      (processPage K page batch total saved).2.2.1.length +
        (processPage K page batch total saved).1.length + total =
      saved.length + batch.length + (processPage K page batch total saved).2.1 := by
  intro page
  induction page with
  | nil =>
    intro batch total saved
    simp only [processPage]
  | cons tw rest ih =>
    intro batch total saved
    cases hx : extract_tweet tw with
    | error e =>
      simp only [processPage, hx]
    | ok r =>
      simp only [processPage, hx]
      have hfl := flushStep_len (batch ++ [r]) saved
      simp only [List.length_append, List.length_cons, List.length_nil] at hfl
      by_cases hk : K ≤ total + 1
      · rw [if_pos hk]
        show (flushStep (batch ++ [r]) saved).2.length +
          (flushStep (batch ++ [r]) saved).1.length + total =
          saved.length + batch.length + (total + 1)
        omega
      · rw [if_neg hk]
        have hi := ih (flushStep (batch ++ [r]) saved).1 (total + 1)
          (flushStep (batch ++ [r]) saved).2
        omega

lemma processPage_ok_spec (K : Nat) :
    ∀ (page : List Tweet) (batch : List Record) (total : Nat) (saved : List Record),
      (∀ tw ∈ page, extractsOk tw = true) → total < K →
      (processPage K page batch total saved).2.2.2 = false ∧
      (processPage K page batch total saved).2.1 = total + min (K - total) page.length ∧
      (processPage K page batch total saved).2.2.1 ++
          (processPage K page batch total saved).1 =
        saved ++ batch ++
          (page.take (K - total)).filterMap (fun tw => (extract_tweet tw).toOption) := by
  intro page
  induction page with
  | nil =>
    intro batch total saved hok htot
    refine ⟨by simp [processPage], by simp [processPage], by simp [processPage]⟩
  | cons tw rest ih =>
    intro batch total saved hok htot
    obtain ⟨r, hr⟩ : ∃ r, extract_tweet tw = .ok r := by
      have hh := hok tw (by simp)
      unfold extractsOk at hh
      cases hxx : extract_tweet tw with
      | ok r => exact ⟨r, rfl⟩
      | error e => rw [hxx] at hh; simp at hh
    simp only [processPage, hr]
    by_cases hk : K ≤ total + 1
    · rw [if_pos hk]
      refine ⟨rfl, ?_, ?_⟩
      · show total + 1 = total + min (K - total) (tw :: rest).length
        simp only [List.length_cons]
        omega
      · show (flushStep (batch ++ [r]) saved).2 ++ (flushStep (batch ++ [r]) saved).1 =
          saved ++ batch ++
            ((tw :: rest).take (K - total)).filterMap (fun tw => (extract_tweet tw).toOption)
        rw [flushStep_flat]
        have h1 : K - total = 1 := by omega
        rw [h1, List.take_succ_cons, List.take_zero, List.filterMap_cons, hr]
        simp [Except.toOption, List.append_assoc]
    · rw [if_neg hk]
      obtain ⟨ih1, ih2, ih3⟩ := ih (flushStep (batch ++ [r]) saved).1 (total + 1)
        (flushStep (batch ++ [r]) saved).2
        (fun tw' hmem => hok tw' (List.mem_cons_of_mem _ hmem)) (by omega)
      refine ⟨ih1, ?_, ?_⟩
      · rw [ih2]
        simp only [List.length_cons]
        omega
      · rw [ih3, flushStep_flat]
        obtain ⟨m, hm⟩ : ∃ m, K - total = m + 1 := ⟨K - total - 1, by omega⟩
        have hm2 : K - (total + 1) = m := by omega
        rw [hm, hm2, List.take_succ_cons, List.filterMap_cons, hr]
        simp [Except.toOption, List.append_assoc]

lemma searchGo_le (K : Nat) :
    ∀ (fetches : List (Except Unit (List Tweet))) (page : List Tweet)
      (batch : List Record) (total : Nat) (saved : List Record),
      total ≤ K → (searchGo K fetches page batch total saved).1 ≤ K := by
  intro fetches
  induction fetches with
  | nil =>
    intro page batch total saved h
    rw [searchGo.eq_def]
    by_cases hg : page = [] ∨ K ≤ total
    · rw [if_pos hg]; exact h
    · rw [if_neg hg]
      have hlt : total < K := by
        rcases not_or.mp hg with ⟨h1, h2⟩; omega
      have hple := processPage_le K page batch total saved hlt
      by_cases ha : (processPage K page batch total saved).2.2.2 = true
      · rw [if_pos ha]; exact hple
      · rw [if_neg ha]
        by_cases hlt2 : (processPage K page batch total saved).2.1 < K
        · rw [if_pos hlt2]; exact hple
        · rw [if_neg hlt2]; exact hple
  | cons f fs ih =>
    intro page batch total saved h
    rw [searchGo.eq_def]
    by_cases hg : page = [] ∨ K ≤ total
    · rw [if_pos hg]; exact h
    · rw [if_neg hg]
      have hlt : total < K := by
        rcases not_or.mp hg with ⟨h1, h2⟩; omega
      have hple := processPage_le K page batch total saved hlt
      by_cases ha : (processPage K page batch total saved).2.2.2 = true
      · rw [if_pos ha]; exact hple
      · rw [if_neg ha]
        by_cases hlt2 : (processPage K page batch total saved).2.1 < K
        · rw [if_pos hlt2]
          cases f with
          | error e => exact hple
          | ok page2 => exact ih page2 _ _ _ (le_of_lt hlt2)
        · rw [if_neg hlt2]; exact hple

lemma searchGo_len (K : Nat) :
    ∀ (fetches : List (Except Unit (List Tweet))) (page : List Tweet)
      (batch : List Record) (total : Nat) (saved : List Record),
      (searchGo K fetches page batch total saved).2.length + total =
        saved.length + batch.length + (searchGo K fetches page batch total saved).1 := by
  intro fetches
  induction fetches with
  | nil =>
    intro page batch total saved
    rw [searchGo.eq_def]
    by_cases hg : page = [] ∨ K ≤ total
    · rw [if_pos hg]
      show (save_tweets_batch saved batch).length + total =
        saved.length + batch.length + total
      rw [save_tweets_batch_eq_append]
      simp only [List.length_append]
    · rw [if_neg hg]
      have hpl := processPage_len K page batch total saved
      by_cases ha : (processPage K page batch total saved).2.2.2 = true
      · rw [if_pos ha]
        show (save_tweets_batch (processPage K page batch total saved).2.2.1
            (processPage K page batch total saved).1).length + total = _
        rw [save_tweets_batch_eq_append]
        simp only [List.length_append]
        omega
      · rw [if_neg ha]
        by_cases hlt2 : (processPage K page batch total saved).2.1 < K
        · rw [if_pos hlt2]
          show (save_tweets_batch (processPage K page batch total saved).2.2.1
              (processPage K page batch total saved).1).length + total = _
          rw [save_tweets_batch_eq_append]
          simp only [List.length_append]
          omega
        · rw [if_neg hlt2]
          show (save_tweets_batch (processPage K page batch total saved).2.2.1
              (processPage K page batch total saved).1).length + total = _
          rw [save_tweets_batch_eq_append]
          simp only [List.length_append]
          omega
  | cons f fs ih =>
    intro page batch total saved
    rw [searchGo.eq_def]
    by_cases hg : page = [] ∨ K ≤ total
    · rw [if_pos hg]
      show (save_tweets_batch saved batch).length + total =
        saved.length + batch.length + total
      rw [save_tweets_batch_eq_append]
      simp only [List.length_append]
    · rw [if_neg hg]
      have hpl := processPage_len K page batch total saved
      by_cases ha : (processPage K page batch total saved).2.2.2 = true
      · rw [if_pos ha]
        show (save_tweets_batch (processPage K page batch total saved).2.2.1
            (processPage K page batch total saved).1).length + total = _
        rw [save_tweets_batch_eq_append]
        simp only [List.length_append]
        omega
      · rw [if_neg ha]
        by_cases hlt2 : (processPage K page batch total saved).2.1 < K
        · rw [if_pos hlt2]
          cases f with
          | error e =>
            show (save_tweets_batch (processPage K page batch total saved).2.2.1
                (processPage K page batch total saved).1).length + total = _
            rw [save_tweets_batch_eq_append]
            simp only [List.length_append]
            omega
          | ok page2 =>
            show (searchGo K fs page2 (processPage K page batch total saved).1
                (processPage K page batch total saved).2.1
                (processPage K page batch total saved).2.2.1).2.length + total =
              saved.length + batch.length +
                (searchGo K fs page2 (processPage K page batch total saved).1
                  (processPage K page batch total saved).2.1
                  (processPage K page batch total saved).2.2.1).1
            have hi := ih page2 (processPage K page batch total saved).1
              (processPage K page batch total saved).2.1
              (processPage K page batch total saved).2.2.1
            omega
        · rw [if_neg hlt2]
          show (save_tweets_batch (processPage K page batch total saved).2.2.1
              (processPage K page batch total saved).1).length + total = _
          rw [save_tweets_batch_eq_append]
          simp only [List.length_append]
          omega

lemma searchGo_error_append (K : Nat) (tail : List (Except Unit (List Tweet))) :
    ∀ (fetches : List (Except Unit (List Tweet))) (page : List Tweet)
      (batch : List Record) (total : Nat) (saved : List Record),
      searchGo K (fetches ++ Except.error () :: tail) page batch total saved =
        searchGo K fetches page batch total saved := by
  intro fetches
  induction fetches with
  | nil =>
    intro page batch total saved
    rw [List.nil_append, searchGo.eq_def, searchGo.eq_def]
  | cons f fs ih =>
    intro page batch total saved
    rw [List.cons_append, searchGo.eq_def, searchGo.eq_def]
    by_cases hg : page = [] ∨ K ≤ total
    · rw [if_pos hg, if_pos hg]
    · rw [if_neg hg, if_neg hg]
      by_cases ha : (processPage K page batch total saved).2.2.2 = true
      · rw [if_pos ha, if_pos ha]
      · rw [if_neg ha, if_neg ha]
        by_cases hlt2 : (processPage K page batch total saved).2.1 < K
        · rw [if_pos hlt2, if_pos hlt2]
          cases f with
          | error e => rfl
          | ok page2 => exact ih page2 _ _ _
        · rw [if_neg hlt2, if_neg hlt2]

lemma searchGo_ok_spec (K : Nat) :
    ∀ (pages : List (List Tweet)) (page : List Tweet) (batch : List Record)
      (total : Nat) (saved : List Record),
      (∀ p ∈ pages, p ≠ [] ∧ ∀ tw ∈ p, extractsOk tw = true) →
      (∀ tw ∈ page, extractsOk tw = true) → page ≠ [] → total < K →
      searchGo K (pages.map Except.ok) page batch total saved =
        (min K (total + page.length + (pages.map List.length).sum),
         saved ++ batch ++
           ((page ++ pages.flatten).take (K - total)).filterMap
             (fun tw => (extract_tweet tw).toOption)) := by
  intro pages
  induction pages with
  | nil =>
    intro page batch total saved hpages hpage hne htot
    obtain ⟨h1, h2, h3⟩ := processPage_ok_spec K page batch total saved hpage htot
    rw [List.map_nil, searchGo.eq_def]
    rw [if_neg (by push_neg; exact ⟨hne, by omega⟩)]
    rw [if_neg (by simp [h1])]
    by_cases hlt2 : (processPage K page batch total saved).2.1 < K
    · rw [if_pos hlt2]
      show ((processPage K page batch total saved).2.1,
          save_tweets_batch (processPage K page batch total saved).2.2.1
            (processPage K page batch total saved).1) = _
      rw [save_tweets_batch_eq_append, h3, h2]
      simp only [List.map_nil, List.sum_nil, Nat.add_zero, List.flatten_nil,
        List.append_nil]
      congr 1
      omega
    · rw [if_neg hlt2]
      rw [save_tweets_batch_eq_append, h3, h2]
      simp only [List.map_nil, List.sum_nil, Nat.add_zero, List.flatten_nil,
        List.append_nil]
      congr 1
      omega
  | cons q qs ih =>
    intro page batch total saved hpages hpage hne htot
    obtain ⟨hqne, hqok⟩ := hpages q (by simp)
    have hqs : ∀ p ∈ qs, p ≠ [] ∧ ∀ tw ∈ p, extractsOk tw = true :=
      fun p hp => hpages p (List.mem_cons_of_mem _ hp)
    obtain ⟨h1, h2, h3⟩ := processPage_ok_spec K page batch total saved hpage htot
    rw [List.map_cons, searchGo.eq_def]
    rw [if_neg (by push_neg; exact ⟨hne, by omega⟩)]
    rw [if_neg (by simp [h1])]
    by_cases hlt2 : (processPage K page batch total saved).2.1 < K
    · rw [if_pos hlt2]
      show searchGo K (qs.map Except.ok) q (processPage K page batch total saved).1
          (processPage K page batch total saved).2.1
          (processPage K page batch total saved).2.2.1 = _
      rw [ih q (processPage K page batch total saved).1
        (processPage K page batch total saved).2.1
        (processPage K page batch total saved).2.2.1 hqs hqok hqne hlt2]
      have hplen : page.length < K - total := by
        rw [h2] at hlt2; omega
      have h21 : (processPage K page batch total saved).2.1 = total + page.length := by
        rw [h2]; omega
      rw [h21, h3]
      congr 1
      · simp only [List.map_cons, List.sum_cons, List.length_cons]
        omega
      · have hle : page.length ≤ K - total := by omega
        have hidx : K - (total + page.length) = K - total - page.length := by omega
        rw [List.flatten_cons, hidx]
        conv_rhs => rw [List.take_append_eq_append_take]
        rw [List.take_of_length_le hle, List.filterMap_append]
        simp [List.append_assoc]
    · rw [if_neg hlt2]
      rw [save_tweets_batch_eq_append, h3]
      rw [h2] at hlt2
      have hge : K - total ≤ page.length := by omega
      congr 1
      · rw [h2]
        simp only [List.map_cons, List.sum_cons, List.length_cons]
        omega
      · rw [List.flatten_cons, List.take_append_of_le_length hge]

lemma search_tweets_saved_length (fetches : List (Except Unit (List Tweet))) (K : Nat) :
    (search_tweets fetches K).saved.length = (search_tweets fetches K).total_tweets := by
  cases fetches with
  | nil => rfl
  | cons f rest =>
    cases f with
    | error e => rfl
    | ok page =>
      show (searchGo K rest page [] 0 []).2.length = (searchGo K rest page [] 0 []).1
      have h := searchGo_len K rest page [] 0 []
      simpa using h

/-- C2: the collected total never exceeds `max_tweets = K` in any run; and
when the upstream supplies only successful, nonempty pages whose items all
extract, the total equals exactly `min K` (number of available items): at
most K, exactly K unless the upstream is exhausted first (the loop breaks
mid-page as soon as the total reaches K). -/
theorem c2_target_cap :
    (∀ (fetches : List (Except Unit (List Tweet))) (K : Nat),
      (search_tweets fetches K).total_tweets ≤ K) ∧
    (∀ (pages : List (List Tweet)) (K : Nat), 0 < K →
      (∀ p ∈ pages, p ≠ [] ∧ ∀ tw ∈ p, extractsOk tw = true) →
      (search_tweets (pages.map Except.ok) K).total_tweets =
        min K ((pages.map List.length).sum)) := by
  constructor
  · intro fetches K
    cases fetches with
    | nil => exact Nat.zero_le K
    | cons f rest =>
      cases f with
      | error e => exact Nat.zero_le K
      | ok page =>
        show (searchGo K rest page [] 0 []).1 ≤ K
        exact searchGo_le K rest page [] 0 [] (Nat.zero_le K)
  · intro pages K hK hwf
    cases pages with
    | nil => simp [search_tweets]
    | cons p ps =>
      obtain ⟨hpne, hpok⟩ := hwf p (by simp)
      have hps : ∀ q ∈ ps, q ≠ [] ∧ ∀ tw ∈ q, extractsOk tw = true :=
        fun q hq => hwf q (List.mem_cons_of_mem _ hq)
      show (searchGo K (ps.map Except.ok) p [] 0 []).1 = _
      rw [searchGo_ok_spec K ps p [] 0 [] hps hpok hpne hK]
      simp

/-- Witness for C2: two one-tweet pages, a target of 1: exactly 1 collected. -/
theorem c2_witness :
    (search_tweets [Except.ok [plainTweet], Except.ok [plainTweet2]] 1).total_tweets
      = 1 := by
  have h := c2_target_cap.2 [[plainTweet], [plainTweet2]] 1 (by norm_num) (by decide)
  simpa using h

/-- C3: no record appended before an upstream failure is lost: a run whose
fetch sequence hits an upstream error behaves exactly like the same run
truncated just before the error (the handler at lines 208-212 flushes the
pending batch before terminating), and in every run the number of persisted
rows equals the number of appended records (`total_tweets`). -/
theorem c3_error_preserves_appended :
    (∀ (pages : List (List Tweet)) (tail : List (Except Unit (List Tweet))) (K : Nat),
      search_tweets (pages.map Except.ok ++ Except.error () :: tail) K =
        search_tweets (pages.map Except.ok) K) ∧
    (∀ (fetches : List (Except Unit (List Tweet))) (K : Nat),
      (search_tweets fetches K).saved.length =
        (search_tweets fetches K).total_tweets) := by
  constructor
  · intro pages tail K
    cases pages with
    | nil => rfl
    | cons p ps =>
      show RunResult.mk
          (searchGo K (ps.map Except.ok ++ Except.error () :: tail) p [] 0 []).2
          (searchGo K (ps.map Except.ok ++ Except.error () :: tail) p [] 0 []).1 none =
        RunResult.mk (searchGo K (ps.map Except.ok) p [] 0 []).2
          (searchGo K (ps.map Except.ok) p [] 0 []).1 none
      rw [searchGo_error_append K tail (ps.map Except.ok) p [] 0 []]
  · exact search_tweets_saved_length

/-- C4 as stated is false: `search_tweets` contains no `return` statement,
so the call evaluates to `None`, not to the collected total (here 1). -/
theorem c4_counterexample :
    ¬ ((search_tweets [Except.ok [plainTweet]] 5).returned =
        some (search_tweets [Except.ok [plainTweet]] 5).total_tweets) := by
  intro h
  have hn : (search_tweets [Except.ok [plainTweet]] 5).returned = none := rfl
  rw [hn] at h
  exact Option.noConfusion h

/-- C4 amended: `search_tweets` computes the collected total (`total_tweets`,
reported in the completion message of line 214, and equal to the number of
rows persisted), but returns `None` — the total is not the function's return
value. -/
theorem c4_amended_returns_none :
    ∀ (fetches : List (Except Unit (List Tweet))) (K : Nat),
      (search_tweets fetches K).returned = none ∧
      (search_tweets fetches K).saved.length =
        (search_tweets fetches K).total_tweets := by
  intro fetches K
  refine ⟨?_, search_tweets_saved_length fetches K⟩
  cases fetches with
  | nil => rfl
  | cons f rest =>
    cases f with
    | error e => rfl
    | ok page => rfl

/-- C5: for well-formed upstream data the rows written to the CSV are exactly
the extracted records of the first `total_tweets` items in upstream order
(page order, then within-page arrival order): no record is reordered or
dropped once appended. -/
theorem c5_order_preservation :
    ∀ (pages : List (List Tweet)) (K : Nat), 0 < K →
      (∀ p ∈ pages, p ≠ [] ∧ ∀ tw ∈ p, extractsOk tw = true) →
      (search_tweets (pages.map Except.ok) K).saved =
        (pages.flatten.take
            ((search_tweets (pages.map Except.ok) K).total_tweets)).filterMap
          (fun tw => (extract_tweet tw).toOption) := by
  intro pages K hK hwf
  cases pages with
  | nil => simp [search_tweets]
  | cons p ps =>
    obtain ⟨hpne, hpok⟩ := hwf p (by simp)
    have hps : ∀ q ∈ ps, q ≠ [] ∧ ∀ tw ∈ q, extractsOk tw = true :=
      fun q hq => hwf q (List.mem_cons_of_mem _ hq)
    have hspec := searchGo_ok_spec K ps p [] 0 [] hps hpok hpne hK
    show (searchGo K (ps.map Except.ok) p [] 0 []).2 =
      (((p :: ps).flatten).take
          ((searchGo K (ps.map Except.ok) p [] 0 []).1)).filterMap
        (fun tw => (extract_tweet tw).toOption)
    rw [hspec]
    simp only [List.nil_append, Nat.sub_zero, Nat.zero_add, List.flatten_cons]
    congr 1
    have hlen : (p ++ ps.flatten).length = p.length + (ps.map List.length).sum := by
      simp [List.length_append, List.length_flatten]
    by_cases hc : K ≤ p.length + (ps.map List.length).sum
    · rw [min_eq_left hc]
    · rw [min_eq_right (by omega)]
      rw [List.take_of_length_le (by omega), List.take_of_length_le (by omega)]

/-- Witness for C5: a single page of two tweets, target 2: both records, in
order. -/
theorem c5_witness :
    (search_tweets [Except.ok [plainTweet, plainTweet2]] 2).saved =
      (([plainTweet, plainTweet2]).take
          ((search_tweets [Except.ok [plainTweet, plainTweet2]] 2).total_tweets)).filterMap
        (fun tw => (extract_tweet tw).toOption) := by
  have h := c5_order_preservation [[plainTweet, plainTweet2]] 2 (by norm_num) (by decide)
  simpa using h

lemma processPage_bad_spec (K : Nat) :
    ∀ (pre : List Tweet) (bad : Tweet) (post : List Tweet) (batch : List Record)
      (total : Nat) (saved : List Record),
      (∀ tw ∈ pre, extractsOk tw = true) → extractsOk bad = false →
      total + pre.length < K →
      (processPage K (pre ++ bad :: post) batch total saved).2.2.2 = true ∧
      (processPage K (pre ++ bad :: post) batch total saved).2.1 = total + pre.length ∧
      (processPage K (pre ++ bad :: post) batch total saved).2.2.1 ++
          (processPage K (pre ++ bad :: post) batch total saved).1 =
        saved ++ batch ++
          pre.filterMap (fun tw => (extract_tweet tw).toOption) := by
  intro pre
  induction pre with
  | nil =>
    intro bad post batch total saved hok hbad htot
    obtain ⟨e, he⟩ : ∃ e, extract_tweet bad = .error e := by
      unfold extractsOk at hbad
      cases hx : extract_tweet bad with
      | ok r => rw [hx] at hbad; simp at hbad
      | error e => exact ⟨e, rfl⟩
    rw [List.nil_append]
    refine ⟨?_, ?_, ?_⟩ <;> simp [processPage, he]
  | cons tw pre ih =>
    intro bad post batch total saved hok hbad htot
    obtain ⟨r, hr⟩ : ∃ r, extract_tweet tw = .ok r := by
      have hh := hok tw (by simp)
      unfold extractsOk at hh
      cases hxx : extract_tweet tw with
      | ok r => exact ⟨r, rfl⟩
      | error e => rw [hxx] at hh; simp at hh
    rw [List.cons_append]
    simp only [processPage, hr]
    simp only [List.length_cons] at htot
    rw [if_neg (by omega)]
    obtain ⟨ih1, ih2, ih3⟩ := ih bad post (flushStep (batch ++ [r]) saved).1 (total + 1)
      (flushStep (batch ++ [r]) saved).2
      (fun tw' hmem => hok tw' (List.mem_cons_of_mem _ hmem)) hbad (by omega)
    refine ⟨ih1, ?_, ?_⟩
    · rw [ih2]
      simp only [List.length_cons]
      omega
    · rw [ih3, flushStep_flat, List.filterMap_cons, hr]
      simp [Except.toOption, List.append_assoc]

/-- C7 as stated is false: an extraction error on one malformed item is
caught only by the run-level handler, which flushes and terminates the whole
run. Here the first item of the page is malformed (`badTweet`, whose
empty `streams` list makes `media.streams[-1]` raise) while the second item
(`plainTweet`) is perfectly extractable — yet the run collects 0 records and
writes nothing: the remaining item of the page is not processed. -/
theorem c7_counterexample :
    extractsOk badTweet = false ∧ extractsOk plainTweet = true ∧
    (search_tweets [Except.ok [badTweet, plainTweet]] 5).total_tweets = 0 ∧
    (search_tweets [Except.ok [badTweet, plainTweet]] 5).saved = [] := by
  refine ⟨rfl, rfl, rfl, by decide⟩

/-- C7 amended: if extraction of a single item fails, the driver does not
skip it: the run-level handler catches the error, flushes the records
collected so far (which are all persisted), and terminates the run; the
failing item, the rest of its page and all subsequent pages are not
processed. -/
theorem c7_amended_abort_on_bad_item :
    ∀ (pre : List Tweet) (bad : Tweet) (post : List Tweet)
      (tail : List (Except Unit (List Tweet))) (K : Nat),
      (∀ tw ∈ pre, extractsOk tw = true) → extractsOk bad = false →
      pre.length < K →
      search_tweets (Except.ok (pre ++ bad :: post) :: tail) K =
        { saved := pre.filterMap (fun tw => (extract_tweet tw).toOption),
          total_tweets := pre.length, returned := none } := by
  intro pre bad post tail K hok hbad hlen
  obtain ⟨h1, h2, h3⟩ :=
    processPage_bad_spec K pre bad post [] 0 [] hok hbad (by omega)
  show RunResult.mk (searchGo K tail (pre ++ bad :: post) [] 0 []).2
      (searchGo K tail (pre ++ bad :: post) [] 0 []).1 none = _
  rw [searchGo.eq_def]
  rw [if_neg (by
    push_neg
    exact ⟨fun hcontra => by simp at hcontra, by omega⟩)]
  rw [if_pos h1]
  rw [save_tweets_batch_eq_append, h3, h2]
  simp

/-- Witness for C7 (amended): one good tweet, then the malformed one, then
another good one: the run stops with exactly the first record persisted. -/
theorem c7_witness :
    search_tweets [Except.ok [plainTweet, badTweet, plainTweet2]] 5 =
      { saved := [plainTweet].filterMap (fun tw => (extract_tweet tw).toOption),
        total_tweets := 1, returned := none } := by
  have h := c7_amended_abort_on_bad_item [plainTweet] badTweet [plainTweet2] [] 5
    (by decide) (by decide) (by norm_num)
  simpa using h

end TwitterScraper
